import Mathlib

/-!
Verification of the positional-astrology core of src/app.py against its
natural-language specification.  Python floats are embedded as exact
rationals, instants (Python datetime values) as integer microseconds since
an arbitrary epoch, and the external ephemeris provider (swisseph) and the
timezone database (pytz) as explicit function parameters or small models.
-/

/-- Rational counterpart of the Python float modulo operator x % m for a
positive modulus m: the remainder of floor division. -/
def qmod (x m : ℚ) : ℚ := x - m * (⌊x / m⌋ : ℤ)

/-- Embedding of normalize_deg (src/app.py lines 59-61): x % 360.0, then
add 360 if the remainder is negative. -/
def normalize_deg (x : ℚ) : ℚ :=
  let y := qmod x 360
  if 0 ≤ y then y else y + 360

/-- Embedding of the SIGNS table (src/app.py lines 55-56). -/
def SIGNS : List String :=
  ["Aries", "Taurus", "Gemini", "Cancer", "Leo", "Virgo",
   "Libra", "Scorpio", "Sagittarius", "Capricorn", "Aquarius", "Pisces"]

/-- Embedding of sign_from_lon (src/app.py lines 63-64). -/
def sign_from_lon (lon : ℚ) : String :=
  SIGNS.getD (⌊normalize_deg lon / 30⌋).toNat "Aries"

/-- Embedding of angle_diff_signed (src/app.py lines 233-238): the smallest
signed angle (a-b) in (-180, 180]. -/
def angle_diff_signed (a b : ℚ) : ℚ :=
  let d := qmod (a - b) 360
  if 180 < d then d - 360 else d

/-- Round-half-to-even to an integer, the rounding mode of the Python
built-in round. -/
def rhe (q : ℚ) : ℤ :=
  let f : ℤ := ⌊q⌋
  let r : ℚ := q - f
  if r < 1/2 then f
  else if 1/2 < r then f + 1
  else if f % 2 = 0 then f else f + 1

/-- Embedding of the Python call round(x, 3) used throughout src/app.py. -/
def round3 (x : ℚ) : ℚ := (rhe (x * 1000) : ℚ) / 1000

/-- Embedding of cusps_to_12 (src/app.py lines 79-84).  The input is already
a list of numbers, so the isinstance guard of line 80 has no counterpart. -/
def cusps_to_12 (cusps : List ℚ) : Except String (List ℚ) :=
  let n := cusps.length
  if 13 ≤ n then .ok ((List.range 12).map (fun i => round3 (cusps.getD (i + 1) 0)))
  else if n = 12 then .ok ((List.range 12).map (fun i => round3 (cusps.getD i 0)))
  else .error "houses_ex cusps length unexpected"

/-- Embedding of GATE_SIZE (src/app.py line 162): 360/64 degrees. -/
def GATE_SIZE : ℚ := 360 / 64

/-- Embedding of LINE_SIZE (src/app.py line 163). -/
def LINE_SIZE : ℚ := GATE_SIZE / 6

/-- Embedding of COLOR_SIZE (src/app.py line 164). -/
def COLOR_SIZE : ℚ := LINE_SIZE / 6

/-- Embedding of TONE_SIZE (src/app.py line 165). -/
def TONE_SIZE : ℚ := COLOR_SIZE / 6

/-- Embedding of BASE_SIZE (src/app.py line 166). -/
def BASE_SIZE : ℚ := TONE_SIZE / 5

/-- Embedding of the GATE_ORDER table (src/app.py lines 169-174). -/
def GATE_ORDER : List ℤ :=
  [25, 17, 21, 51, 42, 3, 27, 24, 2, 23, 8, 20, 16, 35, 45, 12, 15,
   52, 39, 53, 62, 56, 31, 33, 7, 4, 29, 59, 40, 64, 47, 6, 46,
   18, 48, 57, 32, 50, 28, 44, 1, 43, 14, 34, 9, 5, 26, 11, 10,
   58, 38, 54, 61, 60, 41, 19, 13, 49, 30, 55, 37, 63, 22, 36]

/-- Embedding of START_DEG (src/app.py line 175): normalize_deg (330 + 28.25). -/
def START_DEG : ℚ := normalize_deg (330 + 28.25)

/-- The zero-based gate index computed inside hd_from_lon (src/app.py
lines 178-180): int(((normalize_deg lon - START_DEG) % 360) // GATE_SIZE). -/
def gate_idx (lonDeg : ℚ) : ℤ :=
  ⌊qmod (normalize_deg lonDeg - START_DEG) 360 / GATE_SIZE⌋

/-- Embedding of hd_from_lon (src/app.py lines 177-186).  The returned Python
dict of five integer fields is embedded as an association list. -/
def hd_from_lon (lonDeg : ℚ) : List (String × ℤ) :=
  let x := normalize_deg lonDeg
  let delta := qmod (x - START_DEG) 360
  let idx : ℤ := ⌊delta / GATE_SIZE⌋
  let inside := delta - idx * GATE_SIZE
  let line : ℤ := ⌊inside / LINE_SIZE⌋ + 1
  let color : ℤ := ⌊qmod inside LINE_SIZE / COLOR_SIZE⌋ + 1
  let tone : ℤ := ⌊qmod inside COLOR_SIZE / TONE_SIZE⌋ + 1
  let base : ℤ := ⌊qmod inside TONE_SIZE / BASE_SIZE⌋ + 1
  [("gate", GATE_ORDER.getD idx.toNat 0), ("line", line), ("color", color),
   ("tone", tone), ("base", base)]

/-- Modelled from the spec: the fractional position (0..1) of a longitude
within its color interval, which the spec says the wheel encoder reports but
which is absent from src/app.py. -/
def spec_color_fraction (lonDeg : ℚ) : ℚ :=
  let delta := qmod (normalize_deg lonDeg - START_DEG) 360
  let inside := delta - (⌊delta / GATE_SIZE⌋ : ℤ) * GATE_SIZE
  qmod inside COLOR_SIZE / COLOR_SIZE

/-- The scan of house intervals inside house_of (src/app.py lines 206-210):
the first argument is the fuel (12 iterations in the source), the second the
current house index; none means the loop ran out without a match. -/
def houseFind (L : ℚ) (edges : List ℚ) : ℕ → ℕ → Option ℕ
  | 0, _ => none
  | k + 1, i =>
      let s := edges.getD i 0
      let e := edges.getD (i + 1) 0
      let P := if s ≤ L then L else L + 360
      if s ≤ P ∧ P < e then some (i + 1) else houseFind L edges k (i + 1)

/-- Embedding of house_of (src/app.py lines 202-211): scan the 12 intervals;
the bare value 12 is returned when no interval matched. -/
def house_of (lonDeg : ℚ) (cusps12 : List ℚ) : ℕ :=
  let L := normalize_deg lonDeg
  let edges := cusps12 ++ [cusps12.getD 0 0 + 360]
  (houseFind L edges 12 0).getD 12

-- ---------------------------------------------------------------------------
-- Theorems
-- ---------------------------------------------------------------------------

/-- Helper: the rational floor-mod with modulus 360 is nonnegative. -/
theorem qmod_nonneg (x : ℚ) : 0 ≤ qmod x 360 := by
  have h := Int.floor_le (x / 360)
  have h360 : (0:ℚ) < 360 := by norm_num
  unfold qmod
  nlinarith [h]

/-- Helper: the rational floor-mod with modulus 360 is below 360. -/
theorem qmod_lt (x : ℚ) : qmod x 360 < 360 := by
  have h := Int.lt_floor_add_one (x / 360)
  have h360 : (0:ℚ) < 360 := by norm_num
  unfold qmod
  nlinarith [h]

/-- Helper: floor-mod 360 is invariant under adding integer multiples of 360. -/
theorem qmod_add_int_mul (x : ℚ) (k : ℤ) : qmod (x + 360 * k) 360 = qmod x 360 := by
  unfold qmod
  have h : (x + 360 * k) / 360 = x / 360 + k := by
    ring
  rw [h, Int.floor_add_int]
  push_cast
  ring

/-- C9: for every rational x, normalize_deg x lies in [0, 360), and
normalize_deg is invariant under adding any integer multiple of 360. -/
theorem normalize_deg_mem_and_periodic (x : ℚ) (k : ℤ) :
    0 ≤ normalize_deg x ∧ normalize_deg x < 360 ∧
      normalize_deg (x + 360 * k) = normalize_deg x := by
  have h0 := qmod_nonneg x
  have h1 := qmod_lt x
  have h2 := qmod_add_int_mul x k
  unfold normalize_deg
  simp only [h2]
  constructor
  · split <;> linarith
  · constructor
    · split <;> linarith
    · trivial


/-- Decidable equality for Except results, used to evaluate concrete runs of
cusps_to_12. -/
instance instDecEqExcept {ε α : Type} [DecidableEq ε] [DecidableEq α] :
    DecidableEq (Except ε α)
  | .error a, .error b =>
      if h : a = b then .isTrue (by rw [h]) else .isFalse (by simp [h])
  | .error _, .ok _ => .isFalse (by simp)
  | .ok _, .error _ => .isFalse (by simp)
  | .ok a, .ok b =>
      if h : a = b then .isTrue (by rw [h]) else .isFalse (by simp [h])

set_option maxRecDepth 10000 in
set_option maxHeartbeats 1000000 in
/-- C3: the longitude exactly at the wheel start offset (330 + 28.25 degrees
normalized, that is 358.25) maps to gate 25, line 1, color 1, tone 1, base 1;
and for every gate index i from 0 to 62, one gate size (5.625 degrees) past
the start of gate-index i lies in gate-index i+1, whose gate number is the
table entry GATE_ORDER[i+1] (and the table entry is not the numeric successor
of the previous gate, as the first step already shows). -/
theorem hd_from_lon_start_and_gate_steps :
    START_DEG = 358.25 ∧
    hd_from_lon (normalize_deg (330 + 28.25)) =
      [("gate", 25), ("line", 1), ("color", 1), ("tone", 1), ("base", 1)] ∧
    (∀ i : Fin 63,
      gate_idx (normalize_deg (START_DEG + (i : ℤ) * GATE_SIZE) + GATE_SIZE) = (i : ℤ) + 1 ∧
      (hd_from_lon (normalize_deg (START_DEG + (i : ℤ) * GATE_SIZE) + GATE_SIZE)).lookup "gate"
        = some (GATE_ORDER.getD ((i : ℕ) + 1) 0)) ∧
    GATE_ORDER.getD 1 0 ≠ GATE_ORDER.getD 0 0 + 1 := by
  with_unfolding_all decide

set_option maxRecDepth 10000 in
/-- C4 counterexample: at the longitude half a color interval past the wheel
start, the fractional position within the color interval (modelled from the
spec, absent from the code) is 1/2, yet no value in the dict returned by
hd_from_lon equals it: the encoder reports no fractional positions. -/
theorem hd_from_lon_no_fraction_counterexample :
    spec_color_fraction (START_DEG + COLOR_SIZE / 2) = 1/2 ∧
    ((1:ℚ)/2) ∉ (hd_from_lon (START_DEG + COLOR_SIZE / 2)).map (fun kv => (kv.2 : ℚ)) := by
  with_unfolding_all decide

/-- C4 amended: for every longitude the result of hd_from_lon carries exactly
the five 1-based coordinates gate, line, color, tone and base; no fractional
positions within the color, tone or base intervals are reported. -/
theorem hd_from_lon_fields_are_five_coordinates (lon : ℚ) :
    (hd_from_lon lon).map Prod.fst = ["gate", "line", "color", "tone", "base"] := rfl

set_option maxRecDepth 4000 in
/-- C7 counterexample: a 14-value cusp input, whose length is neither 12 nor
13, does not fail: cusps_to_12 accepts any length of at least 13 and reduces
it by taking indices 1 through 12. -/
theorem cusps_to_12_len14_counterexample :
    ([0, 10, 20, 30, 40, 50, 60, 70, 80, 90, 100, 110, 120, 130] : List ℚ).length ≠ 12 ∧
    ([0, 10, 20, 30, 40, 50, 60, 70, 80, 90, 100, 110, 120, 130] : List ℚ).length ≠ 13 ∧
    cusps_to_12 [0, 10, 20, 30, 40, 50, 60, 70, 80, 90, 100, 110, 120, 130]
      = .ok [10, 20, 30, 40, 50, 60, 70, 80, 90, 100, 110, 120] := by
  with_unfolding_all decide

/-- C7 amended: cusps_to_12 maps any input of length 13 or more to the
3-decimal roundings of its elements at indices 1 through 12, passes a
12-value input through (rounded to 3 decimals), always returns exactly 12
values on success, and fails with the degenerate-cusp error exactly when the
input has fewer than 12 values. -/
theorem cusps_to_12_amended (c : List ℚ) :
    (13 ≤ c.length → cusps_to_12 c = .ok (((c.drop 1).take 12).map round3)) ∧
    (c.length = 12 → cusps_to_12 c = .ok (c.map round3)) ∧
    (cusps_to_12 c = .error "houses_ex cusps length unexpected" ↔ c.length < 12) ∧
    (∀ r, cusps_to_12 c = .ok r → r.length = 12) := by
  have herr : c.length < 12 → cusps_to_12 c = .error "houses_ex cusps length unexpected" := by
    intro hl
    unfold cusps_to_12
    rw [if_neg (by omega), if_neg (by omega)]
  have h1 : 13 ≤ c.length → cusps_to_12 c = .ok (((c.drop 1).take 12).map round3) := by
    intro h13
    unfold cusps_to_12
    rw [if_pos h13]
    congr 1
    apply List.ext_getElem
    · simp
      omega
    · intro i hA hB
      simp only [List.getElem_map, List.getElem_range, List.getElem_take, List.getElem_drop]
      have hi : i + 1 < c.length := by
        simp at hA
        omega
      rw [List.getD_eq_getElem c 0 hi]
      have hcomm : 1 + i = i + 1 := by omega
      simp [hcomm]
  have h2 : c.length = 12 → cusps_to_12 c = .ok (c.map round3) := by
    intro h12
    unfold cusps_to_12
    rw [if_neg (by omega), if_pos h12]
    congr 1
    apply List.ext_getElem
    · simp
      omega
    · intro i hA hB
      simp only [List.getElem_map, List.getElem_range]
      have hi : i < c.length := by
        simp at hA
        omega
      rw [List.getD_eq_getElem c 0 hi]
  refine ⟨h1, h2, ⟨?_, herr⟩, ?_⟩
  · intro h
    by_contra hlen
    push_neg at hlen
    rcases Nat.lt_or_ge c.length 13 with h13 | h13
    · rw [h2 (by omega)] at h
      exact absurd h (by simp)
    · rw [h1 h13] at h
      exact absurd h (by simp)
  · intro r hr
    rcases Nat.lt_or_ge c.length 12 with hl | hl
    · rw [herr hl] at hr
      exact absurd hr (by simp)
    · rcases Nat.lt_or_ge c.length 13 with h13 | h13
      · rw [h2 (by omega)] at hr
        simp only [Except.ok.injEq] at hr
        rw [← hr]
        simp
        omega
      · rw [h1 h13] at hr
        simp only [Except.ok.injEq] at hr
        rw [← hr]
        simp
        omega

set_option maxRecDepth 4000 in
/-- C7 witness: instantiating the amended theorem at a concrete 13-value
input yields the 12 values at indices 1 through 12. -/
theorem cusps_to_12_amended_witness :
    cusps_to_12 [(0:ℚ), 1, 2, 3, 4, 5, 6, 7, 8, 9, 10, 11, 12]
      = .ok [1, 2, 3, 4, 5, 6, 7, 8, 9, 10, 11, 12] := by
  have h := (cusps_to_12_amended [(0:ℚ), 1, 2, 3, 4, 5, 6, 7, 8, 9, 10, 11, 12]).1
    (by with_unfolding_all decide)
  rw [h]
  with_unfolding_all decide

set_option maxRecDepth 4000 in
/-- C5 counterexample: for a valid circularly increasing cusp list whose
first house wraps past 0 degrees, the query exactly at the first cusp is
classified as house 12, not house 1: the house a cusp starts does not always
receive queries at that cusp. -/
theorem house_of_wrap_cusp_counterexample :
    house_of 350 [350, 20, 50, 80, 110, 140, 170, 200, 230, 260, 290, 320] = 12 ∧
    house_of 350 [350, 20, 50, 80, 110, 140, 170, 200, 230, 260, 290, 320] ≠ 1 := by
  with_unfolding_all decide

/-- Helper: normalize_deg fixes values that already lie in [0, 360). -/
theorem normalize_deg_eq_self (x : ℚ) (h0 : 0 ≤ x) (h1 : x < 360) :
    normalize_deg x = x := by
  have hf : ⌊x / 360⌋ = 0 := by
    rw [Int.floor_eq_zero_iff]
    constructor
    · positivity
    · exact (div_lt_one (by norm_num)).mpr h1
  unfold normalize_deg qmod
  rw [hf]
  simp [h0]

/-- Helper: pairwise-adjacent increase of the cusp values extends to any two
indices below 12. -/
theorem cusp_chain_lt (c : List ℚ)
    (hinc : ∀ i, i + 1 < 12 → c.getD i 0 < c.getD (i + 1) 0) :
    ∀ i j, i < j → j < 12 → c.getD i 0 < c.getD j 0 := by
  intro i j
  induction j with
  | zero => omega
  | succ k ih =>
    intro hij hk
    rcases Nat.lt_succ_iff_lt_or_eq.mp hij with h | h
    · exact lt_trans (ih h (by omega)) (hinc k (by omega))
    · subst h
      exact hinc i (by omega)

/-- Helper: on a strictly increasing 12-cusp list inside [0, 360), the scan
of house_of started at any index i at or before j returns house j+1 for the
query placed exactly on cusp j. -/
theorem houseFind_at_cusp (c : List ℚ) (hlen : c.length = 12)
    (hinc : ∀ i, i + 1 < 12 → c.getD i 0 < c.getD (i + 1) 0)
    (h0 : 0 ≤ c.getD 0 0) (h11 : c.getD 11 0 < 360)
    (j : ℕ) (hj : j < 12) :
    ∀ k i, i + k = 12 → i ≤ j →
      houseFind (c.getD j 0) (c ++ [c.getD 0 0 + 360]) k i = some (j + 1) := by
  intro k
  induction k with
  | zero =>
    intro i hik hij
    omega
  | succ k ih =>
    intro i hik hij
    have hi12 : i < 12 := by omega
    have hsEq : (c ++ [c.getD 0 0 + 360]).getD i 0 = c.getD i 0 :=
      List.getD_append c _ 0 i (by omega)
    simp only [houseFind, hsEq]
    rcases Nat.lt_or_ge i j with hlt | hge
    · -- earlier interval: the query sits at or beyond its end edge
      have hi1 : i + 1 < 12 := by omega
      have heEq : (c ++ [c.getD 0 0 + 360]).getD (i + 1) 0 = c.getD (i + 1) 0 :=
        List.getD_append c _ 0 (i + 1) (by omega)
      have hsL : c.getD i 0 ≤ c.getD j 0 := le_of_lt (cusp_chain_lt c hinc i j hlt hj)
      have hnoEnd : ¬ c.getD j 0 < c.getD (i + 1) 0 := by
        rcases Nat.lt_or_ge (i + 1) j with h | h
        · exact not_lt.mpr (le_of_lt (cusp_chain_lt c hinc (i + 1) j h hj))
        · have : i + 1 = j := by omega
          rw [this]
          exact lt_irrefl _
      rw [heEq, if_pos hsL, if_neg (by
        intro hcon
        exact hnoEnd hcon.2)]
      exact ih (i + 1) (by omega) (by omega)
    · -- the interval that starts at cusp j itself
      have hij' : i = j := by omega
      subst hij'
      rw [if_pos (le_refl _)]
      rcases Nat.lt_or_ge (i + 1) 12 with h12 | h12
      · have heEq : (c ++ [c.getD 0 0 + 360]).getD (i + 1) 0 = c.getD (i + 1) 0 :=
          List.getD_append c _ 0 (i + 1) (by omega)
        rw [heEq, if_pos ⟨le_refl _, hinc i h12⟩]
      · have hi11 : i = 11 := by omega
        have heEq : (c ++ [c.getD 0 0 + 360]).getD (i + 1) 0 = c.getD 0 0 + 360 := by
          rw [List.getD_append_right c _ 0 (i + 1) (by omega)]
          rw [hi11, hlen]
          rfl
        have hlast : c.getD i 0 < c.getD 0 0 + 360 := by
          rw [hi11]
          linarith
        rw [heEq, if_pos ⟨le_refl _, hlast⟩]

set_option maxRecDepth 4000 in
/-- C5 amended: for the example cusp list the three stated values hold, and a
query exactly at a cusp is classified into the house that cusp starts for
every 12-cusp list that is numerically strictly increasing within [0, 360);
when the cusp sequence wraps past 0 degrees this can fail (see the
counterexample), so the claim is restricted to non-wrapping lists. -/
theorem house_of_at_cusp_amended :
    house_of 15 [0, 30, 60, 90, 120, 150, 180, 210, 240, 270, 300, 330] = 1 ∧
    house_of 359 [0, 30, 60, 90, 120, 150, 180, 210, 240, 270, 300, 330] = 12 ∧
    house_of 0 [0, 30, 60, 90, 120, 150, 180, 210, 240, 270, 300, 330] = 1 ∧
    ∀ c : List ℚ, c.length = 12 →
      (∀ i, i + 1 < 12 → c.getD i 0 < c.getD (i + 1) 0) →
      0 ≤ c.getD 0 0 → c.getD 11 0 < 360 →
      ∀ j, j < 12 → house_of (c.getD j 0) c = j + 1 := by
  refine ⟨by with_unfolding_all decide, by with_unfolding_all decide,
    by with_unfolding_all decide, ?_⟩
  intro c hlen hinc h0 h11 j hj
  have hub : c.getD j 0 < 360 := by
    rcases Nat.lt_or_ge j 11 with h | h
    · exact lt_trans (cusp_chain_lt c hinc j 11 h (by omega)) h11
    · have : j = 11 := by omega
      rw [this]
      exact h11
  have hlb : 0 ≤ c.getD j 0 := by
    rcases Nat.eq_zero_or_pos j with h | h
    · rw [h]
      exact h0
    · exact le_of_lt (lt_of_le_of_lt h0 (cusp_chain_lt c hinc 0 j h hj))
  show (houseFind (normalize_deg (c.getD j 0)) (c ++ [c.getD 0 0 + 360]) 12 0).getD 12 = j + 1
  rw [normalize_deg_eq_self _ hlb hub,
    houseFind_at_cusp c hlen hinc h0 h11 j hj 12 0 rfl (by omega)]
  rfl

set_option maxRecDepth 4000 in
/-- C5 witness: the general part of the amended theorem instantiated at the
example cusp list and its second cusp. -/
theorem house_of_at_cusp_amended_witness :
    house_of ((30 : ℚ)) [0, 30, 60, 90, 120, 150, 180, 210, 240, 270, 300, 330] = 2 := by
  have hd : ∀ i, i < 11 →
      ([0, 30, 60, 90, 120, 150, 180, 210, 240, 270, 300, 330] : List ℚ).getD i 0 <
        ([0, 30, 60, 90, 120, 150, 180, 210, 240, 270, 300, 330] : List ℚ).getD (i + 1) 0 := by
    with_unfolding_all decide
  have h := house_of_at_cusp_amended.2.2.2
    [0, 30, 60, 90, 120, 150, 180, 210, 240, 270, 300, 330]
    (by with_unfolding_all decide) (fun i hi => hd i (by omega))
    (by with_unfolding_all decide) (by with_unfolding_all decide) 1 (by omega)
  exact h

/-- Model of a pytz timezone with a single daylight-saving period: raw is
the standard UTC offset in seconds, shift the (positive) daylight saving
addition, and the daylight period runs over the UTC seconds in
[dstStart, dstEnd). -/
structure SimpleTZ where
  raw : ℤ
  shift : ℤ
  dstStart : ℤ
  dstEnd : ℤ

/-- The UTC offset (seconds) the zone applies at a UTC instant. -/
def SimpleTZ.offsetAt (tz : SimpleTZ) (u : ℤ) : ℤ :=
  tz.raw + (if tz.dstStart ≤ u ∧ u < tz.dstEnd then tz.shift else 0)

/-- The local wall-clock reading (seconds) at a UTC instant. -/
def SimpleTZ.wallAt (tz : SimpleTZ) (u : ℤ) : ℤ :=
  u + tz.offsetAt u

/-- Model of pytz localize with an explicit is_dst flag: the UTC instant
obtained by subtracting the offset the flag selects. -/
def SimpleTZ.localizeFlag (tz : SimpleTZ) (t : ℤ) (isDst : Bool) : ℤ :=
  t - tz.raw - (if isDst then tz.shift else 0)

/-- A wall-clock value skipped at the spring-forward transition. -/
def SimpleTZ.isNonexistent (tz : SimpleTZ) (t : ℤ) : Prop :=
  tz.dstStart + tz.raw ≤ t ∧ t < tz.dstStart + tz.raw + tz.shift

/-- A wall-clock value repeated at the fall-back transition. -/
def SimpleTZ.isAmbiguous (tz : SimpleTZ) (t : ℤ) : Prop :=
  tz.dstEnd + tz.raw ≤ t ∧ t < tz.dstEnd + tz.raw + tz.shift

instance (tz : SimpleTZ) (t : ℤ) : Decidable (tz.isNonexistent t) := by
  unfold SimpleTZ.isNonexistent
  infer_instance

instance (tz : SimpleTZ) (t : ℤ) : Decidable (tz.isAmbiguous t) := by
  unfold SimpleTZ.isAmbiguous
  infer_instance

/-- Outcome of pytz localize with is_dst set to None: either a unique UTC
instant or one of the two exceptional conditions. -/
inductive LocalizeResult where
  | unique (u : ℤ)
  | ambiguous
  | nonexistent

/-- Model of pytz localize with is_dst set to None: raise on skipped or
repeated wall-clock values, otherwise convert with the offset in force. -/
def SimpleTZ.localizeStrict (tz : SimpleTZ) (t : ℤ) : LocalizeResult :=
  if tz.isNonexistent t then .nonexistent
  else if tz.isAmbiguous t then .ambiguous
  else if tz.dstStart + tz.raw + tz.shift ≤ t ∧ t < tz.dstEnd + tz.raw then
    .unique (t - tz.raw - tz.shift)
  else .unique (t - tz.raw)

/-- Embedding of the tz_name branch of parse_ts_from_inputs (src/app.py
lines 142-151): localize strictly; on AmbiguousTimeError localize with
is_dst True; on NonExistentTimeError add one hour (3600 seconds) and
localize with is_dst True; finally convert to UTC and drop the offset. -/
def parse_ts_local_tzname (tz : SimpleTZ) (t : ℤ) : ℤ :=
  match tz.localizeStrict t with
  | .unique u => u
  | .ambiguous => tz.localizeFlag t true
  | .nonexistent => tz.localizeFlag (t + 3600) true

/-- C6: with a well-formed daylight period, an ambiguous wall-clock value is
resolved to the daylight-saving interpretation, which is a genuine preimage
of the wall-clock value and strictly earlier in UTC than the standard-time
preimage; a non-existent wall-clock value is resolved by adding one hour and
localizing as daylight-saving time; both results are bare UTC instants. -/
theorem parse_ts_local_tzname_dst_policy (tz : SimpleTZ) (t : ℤ)
    (_hshift : 0 < tz.shift) (hord : tz.dstStart + tz.shift ≤ tz.dstEnd) :
    (tz.isAmbiguous t →
      parse_ts_local_tzname tz t = tz.localizeFlag t true ∧
      tz.wallAt (parse_ts_local_tzname tz t) = t ∧
      tz.wallAt (t - tz.raw) = t ∧
      parse_ts_local_tzname tz t < t - tz.raw) ∧
    (tz.isNonexistent t →
      parse_ts_local_tzname tz t = tz.localizeFlag (t + 3600) true) := by
  constructor
  · intro hamb
    obtain ⟨ha1, ha2⟩ := hamb
    have hne : ¬ tz.isNonexistent t := by
      unfold SimpleTZ.isNonexistent
      intro hcon
      omega
    have hres : parse_ts_local_tzname tz t = tz.localizeFlag t true := by
      unfold parse_ts_local_tzname SimpleTZ.localizeStrict
      rw [if_neg hne, if_pos ⟨ha1, ha2⟩]
    refine ⟨hres, ?_, ?_, ?_⟩
    · rw [hres]
      show tz.wallAt (t - tz.raw - tz.shift) = t
      unfold SimpleTZ.wallAt SimpleTZ.offsetAt
      rw [if_pos (⟨by omega, by omega⟩ : _ ∧ _)]
      omega
    · unfold SimpleTZ.wallAt SimpleTZ.offsetAt
      rw [if_neg (by
        intro hcon
        obtain ⟨hc1, hc2⟩ := hcon
        omega)]
      omega
    · rw [hres]
      show t - tz.raw - tz.shift < t - tz.raw
      omega
  · intro hne
    unfold parse_ts_local_tzname SimpleTZ.localizeStrict
    rw [if_pos hne]

/-- C6 witness: the policy instantiated on a concrete zone (raw offset 3600,
shift 3600, daylight period [1000000, 2000000) in UTC seconds) at an
ambiguous and at a non-existent wall-clock value. -/
theorem parse_ts_local_tzname_dst_policy_witness :
    parse_ts_local_tzname ⟨3600, 3600, 1000000, 2000000⟩ 2003700 = 1996500 ∧
    parse_ts_local_tzname ⟨3600, 3600, 1000000, 2000000⟩ 2003700 < 2003700 - 3600 ∧
    parse_ts_local_tzname ⟨3600, 3600, 1000000, 2000000⟩ 1004000 = 1000400 := by
  have ha := (parse_ts_local_tzname_dst_policy ⟨3600, 3600, 1000000, 2000000⟩ 2003700
    (by decide) (by decide)).1 (by constructor <;> decide)
  have hn := (parse_ts_local_tzname_dst_policy ⟨3600, 3600, 1000000, 2000000⟩ 1004000
    (by decide) (by decide)).2 (by constructor <;> decide)
  refine ⟨?_, ?_, ?_⟩
  · rw [ha.1]
    decide
  · exact ha.2.2.2
  · rw [hn]
    decide

/-- Microseconds per day, the resolution of Python datetime arithmetic. -/
def usPerDay : ℤ := 86400000000

/-- Time offset in days as a rational, used to specify synthetic longitude
functions over instants measured in microseconds. -/
def daysQ (t : ℤ) : ℚ := (t : ℚ) / (usPerDay : ℚ)

/-- Division of an even or odd integer by two with round-half-to-even, the
behavior of Python timedelta division by an integer. -/
def halfRoundEven (n : ℤ) : ℤ :=
  if n % 2 = 0 then n / 2
  else if (n / 2) % 2 = 0 then n / 2 else n / 2 + 1

/-- The bracket-widening loop of find_design_datetime_exact (src/app.py
lines 267-274): while the error signs at both ends agree and fewer than 12
attempts were made, move the lower end 5 days back and the upper end 3 days
forward and re-evaluate; returns the final bracket and error values. -/
def designWiden (f : ℤ → ℚ) : ℕ → ℤ → ℤ → ℚ → ℚ → ℤ × ℤ × ℚ × ℚ
  | 0, tLo, tHi, fLo, fHi => (tLo, tHi, fLo, fHi)
  | n + 1, tLo, tHi, fLo, fHi =>
      if fLo * fHi > 0 then
        designWiden f n (tLo - 5 * usPerDay) (tHi + 3 * usPerDay)
          (f (tLo - 5 * usPerDay)) (f (tHi + 3 * usPerDay))
      else (tLo, tHi, fLo, fHi)

/-- The bisection loop of find_design_datetime_exact (src/app.py lines
281-291): 40 iterations; return the midpoint early when the absolute error
drops below 1e-6 degrees, otherwise keep the half that still brackets the
sign change; after the iterations return the midpoint. -/
def designBisect (f : ℤ → ℚ) : ℕ → ℤ → ℤ → ℚ → ℚ → ℤ
  | 0, tLo, tHi, _, _ => tLo + halfRoundEven (tHi - tLo)
  | n + 1, tLo, tHi, fLo, fHi =>
      let tMid := tLo + halfRoundEven (tHi - tLo)
      let fMid := f tMid
      if |fMid| < 1/1000000 then tMid
      else if fLo * fMid ≤ 0 then designBisect f n tLo tMid fLo fMid
      else designBisect f n tMid tHi fMid fHi

/-- The bracketing-then-bisection pipeline of find_design_datetime_exact
(src/app.py lines 264-291), for an arbitrary signed-error function f and an
initial bracket: widen up to 12 times; if the signs at the ends still agree
return the endpoint with the smaller absolute error (the degraded path of
line 277), otherwise bisect for 40 iterations. -/
def designSolve (f : ℤ → ℚ) (tLo tHi : ℤ) : ℤ :=
  let w := designWiden f 12 tLo tHi (f tLo) (f tHi)
  if w.2.2.1 * w.2.2.2 > 0 then
    (if |w.2.2.1| < |w.2.2.2| then w.1 else w.2.1)
  else designBisect f 40 w.1 w.2.1 w.2.2.1 w.2.2.2

/-- Embedding of find_design_datetime_exact (src/app.py lines 249-291).
Instants are integer microseconds; sunLon stands for sun_lon_deg, the
solar-longitude provider composed with normalize_deg, and is the
longitudeAt parameter of the specified contract; the target arc is the
hard-coded 88 degrees. -/
def find_design_datetime_exact (sunLon : ℤ → ℚ) (birth : ℤ) : ℤ :=
  designSolve (fun t => angle_diff_signed (sunLon t) (normalize_deg (sunLon birth - 88)))
    (birth - 95 * usPerDay) (birth - 80 * usPerDay)

/-- The bracket-exhaustion condition of find_design_datetime_exact
(src/app.py line 277): after the widening attempts the error signs at both
bracket ends still agree, so the best-effort endpoint is returned. -/
def designExhausted (sunLon : ℤ → ℚ) (birth : ℤ) : Bool :=
  let lonBirth := sunLon birth
  let target := normalize_deg (lonBirth - 88)
  let f : ℤ → ℚ := fun t => angle_diff_signed (sunLon t) target
  let tLo := birth - 95 * usPerDay
  let tHi := birth - 80 * usPerDay
  let w := designWiden f 12 tLo tHi (f tLo) (f tHi)
  decide (w.2.2.1 * w.2.2.2 > 0)

/-- The bracket produced by the widening phase of find_design_datetime_exact
for a given longitude provider and birth instant: (tLo, tHi, fLo, fHi). -/
def designBracketOf (sunLon : ℤ → ℚ) (birth : ℤ) : ℤ × ℤ × ℚ × ℚ :=
  let f : ℤ → ℚ := fun t => angle_diff_signed (sunLon t) (normalize_deg (sunLon birth - 88))
  designWiden f 12 (birth - 95 * usPerDay) (birth - 80 * usPerDay)
    (f (birth - 95 * usPerDay)) (f (birth - 80 * usPerDay))

/-- Synthetic provider for the solver theorems: a longitude that never
moves, so that no sign change can ever be bracketed. -/
def constantLon : ℤ → ℚ := fun _ => 5

/-- Synthetic monotonically progressing longitude at a constant 12 degrees
per day, far above the solar mean motion. -/
def fastLon : ℤ → ℚ := fun t => normalize_deg (12 * daysQ t)

/-- Synthetic solar-longitude function with constant motion at the mean
solar rate of 480/487 degrees per day (360 degrees in 365.25 days) and
longitude L0 at the reference instant ref, as in the synthetic test of the
specification. -/
def solarLon (ref : ℤ) (L0 : ℚ) : ℤ → ℚ :=
  fun t => normalize_deg (L0 + 480/487 * daysQ (t - ref))

/-- Helper: the underlying angle of fastLon grows strictly with time. -/
theorem fastLon_angle_strictMono : StrictMono (fun t : ℤ => 12 * daysQ t) := by
  intro a b hab
  show 12 * daysQ a < 12 * daysQ b
  unfold daysQ usPerDay
  have hc : (a : ℚ) < (b : ℚ) := by exact_mod_cast hab
  gcongr

set_option maxRecDepth 40000 in
/-- C1 counterexample: for the reference instant 0 and the monotonically
progressing longitude fastLon (12 degrees per day, see
fastLon_angle_strictMono), the solver brackets the wrap discontinuity of the
signed error instead of a zero: the returned instant is strictly earlier
than the reference, but its longitude misses the 88-degree target by exactly
180 degrees, far outside the claimed 1e-6 degree tolerance. -/
theorem find_design_fast_rate_counterexample :
    find_design_datetime_exact fastLon 0 < 0 ∧
    |angle_diff_signed (fastLon (find_design_datetime_exact fastLon 0))
        (normalize_deg (fastLon 0 - 88))| = 180 ∧
    ¬ |angle_diff_signed (fastLon (find_design_datetime_exact fastLon 0))
        (normalize_deg (fastLon 0 - 88))| ≤ 1/1000000 := by
  with_unfolding_all decide

set_option maxRecDepth 40000 in
/-- C8 counterexample: the house-12 fallback of house_of (scan exhausted,
houseFind none) returns the bare number 12, the same value a genuine
12th-house match returns, and the bracket-exhaustion path of
find_design_datetime_exact (with a constant longitude, so no sign change
exists) returns a bare instant whose angular error is 88 degrees; neither
return value carries any metadata or flag marking the degraded path. -/
theorem degraded_fallbacks_counterexample :
    houseFind (normalize_deg 355)
      (([-10, 1, 2, 3, 4, 5, 6, 7, 8, 9, 10, 11] : List ℚ) ++ [(-10 : ℚ) + 360]) 12 0 = none ∧
    house_of 355 [-10, 1, 2, 3, 4, 5, 6, 7, 8, 9, 10, 11] = 12 ∧
    houseFind (normalize_deg 330)
      (([0, 30, 60, 90, 120, 150, 180, 210, 240, 270, 300, 330] : List ℚ) ++ [(0 : ℚ) + 360])
      12 0 = some 12 ∧
    house_of 330 [0, 30, 60, 90, 120, 150, 180, 210, 240, 270, 300, 330] = 12 ∧
    designExhausted constantLon 0 = true ∧
    find_design_datetime_exact constantLon 0 = -44 * usPerDay ∧
    |angle_diff_signed (constantLon (find_design_datetime_exact constantLon 0))
        (normalize_deg (constantLon 0 - 88))| = 88 := by
  with_unfolding_all decide

/-- C8 amended: the two fallback paths are not observable from the returned
values: whenever the house scan finds no interval, house_of returns the bare
number 12 (indistinguishable from a genuine 12th-house result), and whenever
the solver exhausts its bracket-widening attempts, find_design_datetime_exact
returns one of the two bare bracket endpoints, with no metadata or flag in
either case. -/
theorem degraded_fallbacks_unflagged (lon : ℚ) (c : List ℚ) (g : ℤ → ℚ) (b : ℤ)
    (hh : houseFind (normalize_deg lon) (c ++ [c.getD 0 0 + 360]) 12 0 = none)
    (hx : designExhausted g b = true) :
    house_of lon c = 12 ∧
    (find_design_datetime_exact g b = (designBracketOf g b).1 ∨
     find_design_datetime_exact g b = (designBracketOf g b).2.1) := by
  constructor
  · show (houseFind (normalize_deg lon) (c ++ [c.getD 0 0 + 360]) 12 0).getD 12 = 12
    rw [hh]
    rfl
  · have hx' : (designBracketOf g b).2.2.1 * (designBracketOf g b).2.2.2 > 0 := by
      have := of_decide_eq_true hx
      exact this
    have hsolve : find_design_datetime_exact g b =
        (if |(designBracketOf g b).2.2.1| < |(designBracketOf g b).2.2.2|
         then (designBracketOf g b).1 else (designBracketOf g b).2.1) := by
      show (if (designBracketOf g b).2.2.1 * (designBracketOf g b).2.2.2 > 0 then
              (if |(designBracketOf g b).2.2.1| < |(designBracketOf g b).2.2.2|
               then (designBracketOf g b).1 else (designBracketOf g b).2.1)
            else designBisect
              (fun t => angle_diff_signed (g t) (normalize_deg (g b - 88))) 40
              (designBracketOf g b).1 (designBracketOf g b).2.1
              (designBracketOf g b).2.2.1 (designBracketOf g b).2.2.2) = _
      rw [if_pos hx']
    rw [hsolve]
    by_cases habs : |(designBracketOf g b).2.2.1| < |(designBracketOf g b).2.2.2|
    · left
      rw [if_pos habs]
    · right
      rw [if_neg habs]

set_option maxRecDepth 40000 in
/-- C8 witness: the amended theorem applied to the concrete fallback inputs
of the counterexample analysis. -/
theorem degraded_fallbacks_unflagged_witness :
    house_of 355 [-10, 1, 2, 3, 4, 5, 6, 7, 8, 9, 10, 11] = 12 ∧
    (find_design_datetime_exact constantLon 0 = (designBracketOf constantLon 0).1 ∨
     find_design_datetime_exact constantLon 0 = (designBracketOf constantLon 0).2.1) :=
  degraded_fallbacks_unflagged 355 [-10, 1, 2, 3, 4, 5, 6, 7, 8, 9, 10, 11] constantLon 0
    (by with_unfolding_all decide) (by with_unfolding_all decide)

/-- Helper: the signed difference ignores shifts of its first argument by
integer multiples of 360. -/
theorem angle_diff_signed_add_int_left (a b : ℚ) (j : ℤ) :
    angle_diff_signed (a + 360 * j) b = angle_diff_signed a b := by
  unfold angle_diff_signed
  have e : a + 360 * j - b = (a - b) + 360 * j := by ring
  rw [e, qmod_add_int_mul]

/-- Helper: the signed difference ignores shifts of its second argument by
integer multiples of 360. -/
theorem angle_diff_signed_add_int_right (a b : ℚ) (j : ℤ) :
    angle_diff_signed a (b + 360 * j) = angle_diff_signed a b := by
  unfold angle_diff_signed
  have e : a - (b + 360 * j) = (a - b) + 360 * (((-j : ℤ) : ℚ)) := by
    push_cast
    ring
  rw [e, qmod_add_int_mul]

/-- Helper: normalize_deg shifts its input by an integer multiple of 360. -/
theorem normalize_deg_eq_add_int (x : ℚ) : ∃ j : ℤ, normalize_deg x = x + 360 * j := by
  unfold normalize_deg qmod
  by_cases h : (0:ℚ) ≤ x - 360 * (⌊x / 360⌋ : ℤ)
  · exact ⟨-⌊x / 360⌋, by rw [if_pos h]; push_cast; ring⟩
  · exact ⟨-⌊x / 360⌋ + 1, by rw [if_neg h]; push_cast; ring⟩

/-- Helper: normalizing the first argument does not change the signed
difference. -/
theorem angle_diff_signed_norm_left (a b : ℚ) :
    angle_diff_signed (normalize_deg a) b = angle_diff_signed a b := by
  obtain ⟨j, hj⟩ := normalize_deg_eq_add_int a
  rw [hj, angle_diff_signed_add_int_left]

/-- Helper: normalizing the second argument does not change the signed
difference. -/
theorem angle_diff_signed_norm_right (a b : ℚ) :
    angle_diff_signed a (normalize_deg b) = angle_diff_signed a b := by
  obtain ⟨j, hj⟩ := normalize_deg_eq_add_int b
  rw [hj, angle_diff_signed_add_int_right]

/-- Helper: the signed difference depends only on the difference of its
arguments. -/
theorem angle_diff_signed_shift_both (c a b : ℚ) :
    angle_diff_signed (c + a) (c + b) = angle_diff_signed a b := by
  unfold angle_diff_signed
  have e : c + a - (c + b) = a - b := by ring
  rw [e]

/-- Helper: the widening loop commutes with a time translation of the error
function and the bracket. -/
theorem designWiden_shift (f : ℤ → ℚ) (s : ℤ) : ∀ (n : ℕ) (a b : ℤ) (fa fb : ℚ),
    designWiden (fun t => f (t - s)) n (a + s) (b + s) fa fb =
      ((designWiden f n a b fa fb).1 + s, (designWiden f n a b fa fb).2.1 + s,
       (designWiden f n a b fa fb).2.2.1, (designWiden f n a b fa fb).2.2.2) := by
  intro n
  induction n with
  | zero =>
    intro a b fa fb
    rfl
  | succ n ih =>
    intro a b fa fb
    by_cases h : fa * fb > 0
    · have e1 : a + s - 5 * usPerDay = a - 5 * usPerDay + s := by ring
      have e2 : b + s + 3 * usPerDay = b + 3 * usPerDay + s := by ring
      have e3 : a - 5 * usPerDay + s - s = a - 5 * usPerDay := by ring
      have e4 : b + 3 * usPerDay + s - s = b + 3 * usPerDay := by ring
      simp only [designWiden, if_pos h, e1, e2, e3, e4]
      exact ih (a - 5 * usPerDay) (b + 3 * usPerDay) (f (a - 5 * usPerDay)) (f (b + 3 * usPerDay))
    · simp only [designWiden, if_neg h]

/-- Helper: the bisection loop commutes with a time translation of the error
function and the bracket. -/
theorem designBisect_shift (f : ℤ → ℚ) (s : ℤ) : ∀ (n : ℕ) (a b : ℤ) (fa fb : ℚ),
    designBisect (fun t => f (t - s)) n (a + s) (b + s) fa fb =
      designBisect f n a b fa fb + s := by
  intro n
  induction n with
  | zero =>
    intro a b fa fb
    show a + s + halfRoundEven (b + s - (a + s)) = a + halfRoundEven (b - a) + s
    have e : b + s - (a + s) = b - a := by ring
    rw [e]
    ring
  | succ n ih =>
    intro a b fa fb
    have em : b + s - (a + s) = b - a := by ring
    have emid : a + s + halfRoundEven (b - a) = a + halfRoundEven (b - a) + s := by ring
    have earg : a + halfRoundEven (b - a) + s - s = a + halfRoundEven (b - a) := by ring
    simp only [designBisect, em, emid, earg]
    by_cases h1 : |f (a + halfRoundEven (b - a))| < 1/1000000
    · rw [if_pos h1, if_pos h1]
    · rw [if_neg h1, if_neg h1]
      by_cases h2 : fa * f (a + halfRoundEven (b - a)) ≤ 0
      · rw [if_pos h2, if_pos h2]
        exact ih a (a + halfRoundEven (b - a)) fa (f (a + halfRoundEven (b - a)))
      · rw [if_neg h2, if_neg h2]
        exact ih (a + halfRoundEven (b - a)) b (f (a + halfRoundEven (b - a))) fb

/-- Helper: the whole pipeline commutes with a time translation. -/
theorem designSolve_shift (f : ℤ → ℚ) (s a b : ℤ) :
    designSolve (fun t => f (t - s)) (a + s) (b + s) = designSolve f a b + s := by
  unfold designSolve
  have ea : a + s - s = a := by ring
  have eb : b + s - s = b := by ring
  simp only [ea, eb]
  rw [designWiden_shift f s 12 a b (f a) (f b)]
  by_cases h : (designWiden f 12 a b (f a) (f b)).2.2.1 *
      (designWiden f 12 a b (f a) (f b)).2.2.2 > 0
  · rw [if_pos h, if_pos h]
    by_cases h2 : |(designWiden f 12 a b (f a) (f b)).2.2.1| <
        |(designWiden f 12 a b (f a) (f b)).2.2.2|
    · rw [if_pos h2, if_pos h2]
    · rw [if_neg h2, if_neg h2]
  · rw [if_neg h, if_neg h]
    exact designBisect_shift f s 40 _ _ _ _

/-- Helper: normalize_deg of zero is zero. -/
theorem normalize_deg_zero : normalize_deg 0 = 0 := by
  with_unfolding_all decide

/-- Helper: a time translation of the longitude function translates the
returned design instant. -/
theorem find_design_shift (g : ℤ → ℚ) (s : ℤ) :
    find_design_datetime_exact (fun t => g (t - s)) s =
      find_design_datetime_exact g 0 + s := by
  have hb : g (s - s) = g 0 := by rw [sub_self]
  show designSolve (fun t => angle_diff_signed (g (t - s)) (normalize_deg (g (s - s) - 88)))
      (s - 95 * usPerDay) (s - 80 * usPerDay)
    = designSolve (fun t => angle_diff_signed (g t) (normalize_deg (g 0 - 88)))
      (0 - 95 * usPerDay) (0 - 80 * usPerDay) + s
  simp only [hb]
  have e1 : s - 95 * usPerDay = 0 - 95 * usPerDay + s := by ring
  have e2 : s - 80 * usPerDay = 0 - 80 * usPerDay + s := by ring
  rw [e1, e2]
  exact designSolve_shift (fun t => angle_diff_signed (g t) (normalize_deg (g 0 - 88))) s _ _

/-- Helper: the signed-error function of the solver is the same for every
initial phase L0 of the constant-rate model: the phase cancels between the
current longitude and the 88-degree target. -/
theorem solarLon_f_collapse (L0 : ℚ) :
    (fun t => angle_diff_signed (solarLon 0 L0 t) (normalize_deg (solarLon 0 L0 0 - 88)))
      = (fun t => angle_diff_signed (solarLon 0 0 t) (normalize_deg (solarLon 0 0 0 - 88))) := by
  funext t
  have hd0 : daysQ 0 = 0 := by
    unfold daysQ
    norm_num
  have hL : ∀ M : ℚ, solarLon 0 M t = normalize_deg (M + 480/487 * daysQ t) := by
    intro M
    unfold solarLon
    rw [sub_zero]
  have hL0 : ∀ M : ℚ, solarLon 0 M 0 = normalize_deg M := by
    intro M
    unfold solarLon
    rw [sub_zero, hd0, mul_zero, add_zero]
  rw [hL L0, hL 0, hL0 L0, hL0 0]
  rw [angle_diff_signed_norm_left, angle_diff_signed_norm_left,
    angle_diff_signed_norm_right, angle_diff_signed_norm_right]
  obtain ⟨j, hj⟩ := normalize_deg_eq_add_int L0
  rw [hj]
  have e1 : L0 + 360 * (j : ℚ) - 88 = (L0 - 88) + 360 * (j : ℚ) := by ring
  rw [e1, angle_diff_signed_add_int_right]
  have e2 : L0 - 88 = L0 + (-88) := by ring
  have e3 : L0 + 480/487 * daysQ t = L0 + (480/487 * daysQ t) := by ring
  rw [e2, e3, angle_diff_signed_shift_both]
  rw [normalize_deg_zero]
  have e4 : (0:ℚ) + 480/487 * daysQ t = 480/487 * daysQ t := by ring
  have e5 : (0:ℚ) - 88 = -88 := by ring
  rw [e4, e5]

set_option maxRecDepth 40000 in
/-- Helper: for the zero-phase constant-solar-rate model at reference
instant 0, the solver returns a strictly earlier instant whose signed error
against the 88-degree target is below 1e-6 degrees. -/
theorem find_design_solar_base :
    find_design_datetime_exact (solarLon 0 0) 0 < 0 ∧
    |angle_diff_signed (solarLon 0 0 (find_design_datetime_exact (solarLon 0 0) 0))
        (normalize_deg (solarLon 0 0 0 - 88))| < 1/1000000 := by
  with_unfolding_all decide

/-- C1 amended: for every reference instant and every initial phase, with
the longitude progressing at the constant mean solar rate of 480/487 degrees
per day (so that the 88-degree crossing falls inside the initial bracket of
80 to 95 days before the reference and the signed error has no wrap
discontinuity there), find_design_datetime_exact returns an instant strictly
earlier than the reference whose longitude matches
normalize_deg (longitude at reference - 88) to within 1e-6 degrees.  For
faster monotone motion this fails (see the counterexample). -/
theorem find_design_solar_rate_amended (ref : ℤ) (L0 : ℚ) :
    find_design_datetime_exact (solarLon ref L0) ref < ref ∧
    |angle_diff_signed (solarLon ref L0 (find_design_datetime_exact (solarLon ref L0) ref))
        (normalize_deg (solarLon ref L0 ref - 88))| < 1/1000000 := by
  have hfun : solarLon ref L0 = fun t => solarLon 0 L0 (t - ref) := by
    funext t
    unfold solarLon
    rw [sub_zero]
  have hcol : find_design_datetime_exact (solarLon 0 L0) 0
      = find_design_datetime_exact (solarLon 0 0) 0 := by
    show designSolve (fun t => angle_diff_signed (solarLon 0 L0 t)
        (normalize_deg (solarLon 0 L0 0 - 88))) (0 - 95 * usPerDay) (0 - 80 * usPerDay)
      = designSolve (fun t => angle_diff_signed (solarLon 0 0 t)
        (normalize_deg (solarLon 0 0 0 - 88))) (0 - 95 * usPerDay) (0 - 80 * usPerDay)
    rw [solarLon_f_collapse L0]
  have hshift0 : find_design_datetime_exact (solarLon ref L0) ref
      = find_design_datetime_exact (solarLon 0 0) 0 + ref := by
    rw [hfun, find_design_shift (solarLon 0 L0) ref, hcol]
  obtain ⟨hres, herr⟩ := find_design_solar_base
  constructor
  · rw [hshift0]
    omega
  · rw [hshift0]
    have h1 : solarLon ref L0 (find_design_datetime_exact (solarLon 0 0) 0 + ref)
        = solarLon 0 L0 (find_design_datetime_exact (solarLon 0 0) 0) := by
      show normalize_deg (L0 + 480/487 *
          daysQ (find_design_datetime_exact (solarLon 0 0) 0 + ref - ref))
        = normalize_deg (L0 + 480/487 *
          daysQ (find_design_datetime_exact (solarLon 0 0) 0 - 0))
      have e : find_design_datetime_exact (solarLon 0 0) 0 + ref - ref
          = find_design_datetime_exact (solarLon 0 0) 0 - 0 := by ring
      rw [e]
    have h2 : solarLon ref L0 ref = solarLon 0 L0 0 := by
      show normalize_deg (L0 + 480/487 * daysQ (ref - ref))
        = normalize_deg (L0 + 480/487 * daysQ ((0 : ℤ) - 0))
      have e : ref - ref = (0 : ℤ) - 0 := by ring
      rw [e]
    rw [h1, h2]
    have h3 : angle_diff_signed (solarLon 0 L0 (find_design_datetime_exact (solarLon 0 0) 0))
          (normalize_deg (solarLon 0 L0 0 - 88))
        = angle_diff_signed (solarLon 0 0 (find_design_datetime_exact (solarLon 0 0) 0))
          (normalize_deg (solarLon 0 0 0 - 88)) :=
      congrFun (solarLon_f_collapse L0) (find_design_datetime_exact (solarLon 0 0) 0)
    rw [h3]
    exact herr

/-- Entry of the planets dict built by calc_planets (src/app.py lines
293-326): either the computed record or the error record of line 310. -/
inductive PlanetEntry where
  | ok (lon lat speed : ℚ) (sign : String) (house : ℕ) (hd : List (String × ℤ))
  | err (msg : String)
deriving DecidableEq

/-- The PLANETS table (src/app.py lines 191-198), in dict order. -/
def PLANETS : List String :=
  ["sun", "moon", "mercury", "venus", "mars", "jupiter", "saturn",
   "uranus", "neptune", "pluto", "true_node", "lilith_mean", "chiron"]

/-- The per-body record built in the loop of calc_planets (src/app.py lines
299-308). -/
def planetEntry (cusps12 : List ℚ) (lonv latv spdv : ℚ) : PlanetEntry :=
  let plon := normalize_deg lonv
  .ok (round3 plon) (round3 latv) (round3 spdv) (sign_from_lon plon)
    (house_of plon cusps12) (hd_from_lon plon)

/-- The derived record of src/app.py lines 313-318 and 320-325: the stored
longitude of the base body shifted by 180 degrees and normalized, latitude
and speed fixed at 0, sign, house and wheel coordinates recomputed. -/
def derivedEntry (cusps12 : List ℚ) (baseLon : ℚ) : PlanetEntry :=
  let dlon := normalize_deg (baseLon + 180)
  .ok (round3 dlon) 0 0 (sign_from_lon dlon) (house_of dlon cusps12) (hd_from_lon dlon)

/-- Embedding of calc_planets (src/app.py lines 293-326).  calcBody stands
for the swisseph calc_ut call specialized to the flag set of each body; an
error result models the exception caught on line 309. -/
def calc_planets (calcBody : String → Except String (ℚ × ℚ × ℚ)) (cusps12 : List ℚ) :
    List (String × PlanetEntry) :=
  let base := PLANETS.map (fun name =>
    (name, match calcBody name with
      | .ok (lo, la, sp) => planetEntry cusps12 lo la sp
      | .error e => .err e))
  let withEarth :=
    match base.lookup "sun" with
    | some (.ok slon _ _ _ _ _) => base ++ [("earth", derivedEntry cusps12 slon)]
    | _ => base
  match withEarth.lookup "true_node" with
  | some (.ok nlon _ _ _ _ _) => withEarth ++ [("south_node", derivedEntry cusps12 nlon)]
  | _ => withEarth

/-- Helper: round-half-to-even fixes integers. -/
theorem rhe_intCast (z : ℤ) : rhe (z : ℚ) = z := by
  unfold rhe
  norm_num [Int.floor_intCast]

/-- Helper: a rational that is an integer multiple of 1/1000 is unchanged by
round3. -/
theorem round3_fixed (y : ℚ) (z : ℤ) (h : y * 1000 = z) : round3 y = y := by
  unfold round3
  rw [h, rhe_intCast, eq_comm, eq_div_iff (by norm_num : (1000:ℚ) ≠ 0)]
  exact h

/-- Helper: a longitude already rounded to 3 decimals, shifted by 180
degrees and normalized, is a fixed point of round3. -/
theorem round3_norm_shift_fixed (x : ℚ) :
    round3 (normalize_deg (round3 x + 180)) = normalize_deg (round3 x + 180) := by
  obtain ⟨j, hj⟩ := normalize_deg_eq_add_int (round3 x + 180)
  apply round3_fixed _ (rhe (x * 1000) + 180000 + 360000 * j)
  rw [hj]
  unfold round3
  push_cast
  ring

set_option maxHeartbeats 1000000 in
/-- C10: whenever the provider yields a position for the sun, calc_planets
also emits an earth entry whose stored longitude is exactly the rounded sun
longitude plus 180 degrees normalized to [0,360), with latitude 0 and speed
0, and with sign, house and wheel coordinates recomputed from that shifted
longitude; likewise a true_node position yields such a south_node entry. -/
theorem calc_planets_derived_entries (f : String → Except String (ℚ × ℚ × ℚ))
    (cusps12 : List ℚ) :
    (∀ lo la sp, f "sun" = .ok (lo, la, sp) →
      (calc_planets f cusps12).lookup "earth"
        = some (.ok (normalize_deg (round3 (normalize_deg lo) + 180)) 0 0
            (sign_from_lon (normalize_deg (round3 (normalize_deg lo) + 180)))
            (house_of (normalize_deg (round3 (normalize_deg lo) + 180)) cusps12)
            (hd_from_lon (normalize_deg (round3 (normalize_deg lo) + 180))))) ∧
    (∀ lo la sp, f "true_node" = .ok (lo, la, sp) →
      (calc_planets f cusps12).lookup "south_node"
        = some (.ok (normalize_deg (round3 (normalize_deg lo) + 180)) 0 0
            (sign_from_lon (normalize_deg (round3 (normalize_deg lo) + 180)))
            (house_of (normalize_deg (round3 (normalize_deg lo) + 180)) cusps12)
            (hd_from_lon (normalize_deg (round3 (normalize_deg lo) + 180))))) := by
  constructor
  · intro lo la sp hsun
    have hde : derivedEntry cusps12 (round3 (normalize_deg lo))
        = .ok (normalize_deg (round3 (normalize_deg lo) + 180)) 0 0
            (sign_from_lon (normalize_deg (round3 (normalize_deg lo) + 180)))
            (house_of (normalize_deg (round3 (normalize_deg lo) + 180)) cusps12)
            (hd_from_lon (normalize_deg (round3 (normalize_deg lo) + 180))) := by
      simp only [derivedEntry]
      rw [round3_norm_shift_fixed]
    unfold calc_planets
    rcases htn : f "true_node" with msg | ⟨a, b, c⟩ <;>
      simp [PLANETS, List.lookup, hsun, htn, planetEntry, hde]
  · intro lo la sp htn
    have hde : derivedEntry cusps12 (round3 (normalize_deg lo))
        = .ok (normalize_deg (round3 (normalize_deg lo) + 180)) 0 0
            (sign_from_lon (normalize_deg (round3 (normalize_deg lo) + 180)))
            (house_of (normalize_deg (round3 (normalize_deg lo) + 180)) cusps12)
            (hd_from_lon (normalize_deg (round3 (normalize_deg lo) + 180))) := by
      simp only [derivedEntry]
      rw [round3_norm_shift_fixed]
    unfold calc_planets
    rcases hs : f "sun" with msg | ⟨a, b, c⟩ <;>
      simp [PLANETS, List.lookup, hs, htn, planetEntry, hde]

/-- C10 witness: a provider that always returns longitude 100.5 produces the
derived earth entry at the shifted longitude. -/
theorem calc_planets_derived_entries_witness :
    (calc_planets (fun _ => .ok (100.5, 1, 2))
        [0, 30, 60, 90, 120, 150, 180, 210, 240, 270, 300, 330]).lookup "earth"
      = some (.ok (normalize_deg (round3 (normalize_deg (100.5 : ℚ)) + 180)) 0 0
          (sign_from_lon (normalize_deg (round3 (normalize_deg (100.5 : ℚ)) + 180)))
          (house_of (normalize_deg (round3 (normalize_deg (100.5 : ℚ)) + 180))
            [0, 30, 60, 90, 120, 150, 180, 210, 240, 270, 300, 330])
          (hd_from_lon (normalize_deg (round3 (normalize_deg (100.5 : ℚ)) + 180)))) :=
  (calc_planets_derived_entries (fun _ => .ok (100.5, 1, 2))
    [0, 30, 60, 90, 120, 150, 180, 210, 240, 270, 300, 330]).1 100.5 1 2 rfl
